import Mathlib

/-!
# Verification of the smart-document-analyser frontend and pipeline spec

This development shallowly embeds the React frontend component
`src/frontend/src/App.tsx` (second revision in the file: the tabbed
upload / Q-and-A / analysis component) and, where the Python backend
described by the spec and the README is not part of the source tree,
models the backend pipeline from the spec.

Frontend embedding conventions:
- The useState hooks of `App` become fields of `AppState`.
- Event handlers become pure functions `AppState → inputs → AppState`
  (plus, for `handleUpload`, the list of HTTP requests it issues).
- The outcome of a `fetch` is an explicit parameter (success payload,
  non-ok HTTP status, or a rejected promise with a message).
- `setInterval`-driven progress simulation becomes a small step machine
  (`simTick`); the observable `setProgress` calls of one `handleUpload`
  run are collected by `handleUploadProgressTrace`.
-/

/-- A browser `File`; only its name is relevant to the embedded logic. -/
structure BFile where
  name : String
deriving DecidableEq

/-- The `Question` interface of App.tsx (id, text, answer, timestamp);
the timestamp `Date` is abstracted to a natural-number clock value. -/
structure Question where
  id : String
  text : String
  answer : String
  timestamp : Nat
deriving DecidableEq

/-- The `DocumentResult` interface of App.tsx.  The `any`-typed payloads
(`llava_result`, `text_analysis`) are abstracted to optional strings. -/
structure DocumentResult where
  image : String
  enhanced_image : Option String
  llava_result : Option String
  llava_error : Option String
  ocr_text : String
  ocr_error : Option String
  text_analysis : Option String
  document_id : Option String
deriving DecidableEq

/-- The `activeTab` state of App.tsx: upload, qa or analysis. -/
inductive Tab where
  | upload
  | qa
  | analysis
deriving DecidableEq

/-- The component state of `App` (one field per `useState` hook). -/
structure AppState where
  file : Option BFile
  uploading : Bool
  progress : ℚ
  results : Option (List DocumentResult)
  error : Option String
  activeTab : Tab
  questions : List Question
  currentQuestion : String
  askingQuestion : Bool
  selectedDocument : Option DocumentResult
  processingComplete : Bool
  dragActive : Bool
deriving DecidableEq

/-- `handleFileChange`: if `e.target.files[0]` exists, set `file` to it and
reset `results`, `error`, `questions`, `selectedDocument`; otherwise no-op.
The file list of the input element is passed explicitly. -/
def handleFileChange (s : AppState) (files : List BFile) : AppState :=
  match files with
  | [] => s
  | f :: _ =>
      { s with
        file := some f
        results := none
        error := none
        questions := []
        selectedDocument := none }

/-- `handleDrop`: always `setDragActive(false)`, then, if
`e.dataTransfer.files[0]` exists, set `file` to it and reset `results`,
`error`, `questions`, `selectedDocument`. -/
def handleDrop (s : AppState) (files : List BFile) : AppState :=
  let s1 := { s with dragActive := false }
  match files with
  | [] => s1
  | f :: _ =>
      { s1 with
        file := some f
        results := none
        error := none
        questions := []
        selectedDocument := none }

/-- Phase of the progress simulation: which `setInterval` chain of
`startProgressSimulation` is currently live (`stopped` once the last
interval cleared itself). -/
inductive SimPhase where
  | upload
  | processing
  | finalizing
  | stopped
deriving DecidableEq

/-- State of the progress simulation: the live phase together with the
closure variable `currentProgress` of `startProgressSimulation`. -/
structure SimState where
  phase : SimPhase
  currentProgress : ℚ
deriving DecidableEq

/-- One interval tick of `startProgressSimulation`: increments
`currentProgress` by 2 (upload phase, up to 30), 1 (processing phase, up
to 90) or 0.5 (finalizing phase, up to 100); a tick that overshoots its
bound clears its interval and starts the next phase without calling
`setProgress`.  Returns the new state and the value passed to
`setProgress`, when any. -/
def simTick : SimState → SimState × Option ℚ
  | ⟨.upload, cp⟩ =>
      let cp1 := cp + 2
      if cp1 ≤ 30 then (⟨.upload, cp1⟩, some cp1)
      else (⟨.processing, cp1⟩, none)
  | ⟨.processing, cp⟩ =>
      let cp1 := cp + 1
      if cp1 ≤ 90 then (⟨.processing, cp1⟩, some cp1)
      else (⟨.finalizing, cp1⟩, none)
  | ⟨.finalizing, cp⟩ =>
      let cp1 := cp + 1/2
      if cp1 ≤ 100 then (⟨.finalizing, cp1⟩, some cp1)
      else (⟨.stopped, cp1⟩, none)
  | ⟨.stopped, cp⟩ => (⟨.stopped, cp⟩, none)

/-- Run `n` simulation ticks, collecting the `setProgress` emissions. -/
def simRun : SimState → Nat → SimState × List ℚ
  | s, 0 => (s, [])
  | s, n + 1 =>
      let t := simTick s
      let r := simRun t.1 n
      (r.1, t.2.toList ++ r.2)

/-- The `setProgress` values emitted during the next `n` ticks. -/
def simEmits (s : SimState) (n : Nat) : List ℚ := (simRun s n).2

/-- The simulation state after `n` ticks. -/
def simAfter (s : SimState) (n : Nat) : SimState := (simRun s n).1

/-- `startProgressSimulation` calls `setProgress(0)` and starts the upload
interval chain with `currentProgress = 0`.  It stores none of its three
interval ids anywhere (in particular not in `progressIntervalRef`). -/
def startProgressSimulationState : SimState := ⟨.upload, 0⟩

/-- The value of `progressIntervalRef.current` throughout App.tsx: it is
initialized to `null` and no statement in the component ever assigns it. -/
def progressIntervalRefValue : Option Nat := none

/-- `stopProgressSimulation`: clears the interval held in
`progressIntervalRef.current` when that ref is non-null, else does
nothing.  Clearing would stop the simulation (phase `stopped`). -/
def stopProgressSimulation (ref : Option Nat) (s : SimState) : SimState :=
  match ref with
  | some _ => ⟨.stopped, s.currentProgress⟩
  | none => s

/-- The sequence of `progress` values observed during one successful
`handleUpload` run in which the upload `fetch` resolves after `n`
simulation ticks and `m` further ticks fire afterwards:
`setProgress(0)` from `startProgressSimulation`, the emissions of the
first `n` ticks, `setProgress(100)` from the success handler, then —
because the `finally` block's `stopProgressSimulation` reads the never
assigned `progressIntervalRef` — the emissions of the still-running
intervals for `m` more ticks. -/
def handleUploadProgressTrace (n m : Nat) : List ℚ :=
  let s0 := startProgressSimulationState
  let atFetch := simAfter s0 n
  let afterStop := stopProgressSimulation progressIntervalRefValue atFetch
  0 :: simEmits s0 n ++ 100 :: simEmits afterStop m

/-- Outcome of the `fetch` to `POST /api/upload` in `handleUpload`:
an ok response whose JSON carries `results` (possibly absent), a non-ok
response whose error JSON carries `detail` (possibly absent), or a
rejected promise carrying an error message (possibly empty, modelled as
`none`). -/
inductive UploadFetch where
  | ok (results : Option (List DocumentResult))
  | badStatus (detail : Option String)
  | netError (msg : Option String)
deriving DecidableEq

/-- The URL `handleUpload` posts the form data to. -/
def uploadUrl : String := "http://localhost:8000/api/upload"

/-- `handleUpload`, as a transition on the component state returning also
the list of request URLs issued.  With no selected `file` it returns at
once.  Otherwise it sets `uploading`, clears `error`, `results`,
`questions`, `selectedDocument`, `processingComplete`, starts the
progress simulation (`setProgress(0)`), issues the single upload request
and handles its outcome: on ok, `setProgress(100)`, store
`data.results || []` and, when non-empty, select the first result,
switch to the analysis tab and set `processingComplete`; on a non-ok
status or rejection, store the error message; finally `uploading :=
false`.  (The interleaving of the zombie simulation intervals with these
updates is modelled separately by `handleUploadProgressTrace`.) -/
def handleUpload (s : AppState) (fetch : UploadFetch) : AppState × List String :=
  match s.file with
  | none => (s, [])
  | some _ =>
      let s1 :=
        { s with
          uploading := true
          error := none
          results := none
          questions := []
          selectedDocument := none
          processingComplete := false
          progress := 0 }
      let s2 :=
        match fetch with
        | .ok rs =>
            let stored := rs.getD []
            let s3 := { s1 with progress := 100, results := some stored }
            match stored with
            | [] => s3
            | r :: _ =>
                { s3 with
                  selectedDocument := some r
                  activeTab := .analysis
                  processingComplete := true }
        | .badStatus detail => { s1 with error := some (detail.getD "Upload failed") }
        | .netError msg => { s1 with error := some (msg.getD "Upload failed") }
      ({ s2 with uploading := false }, [uploadUrl])

/-- The semantics of the JavaScript `String.prototype.trim()` used by
`askQuestion`: strip whitespace from both ends of the string.  (Defined
by structural recursion over the character list so that it evaluates
inside the kernel.) -/
def jsTrim (s : String) : String :=
  ⟨((s.data.dropWhile Char.isWhitespace).reverse.dropWhile Char.isWhitespace).reverse⟩

/-- Outcome of the `fetch` to `POST /api/analysis/answer-question` in
`askQuestion`: an ok response whose JSON carries `answer`, a non-ok
response (which makes `askQuestion` throw `Error('Failed to get
answer')` into its own catch), or a rejected promise with a message. -/
inductive AnswerFetch where
  | ok (answer : String)
  | badStatus
  | netError (msg : String)
deriving DecidableEq

/-- `askQuestion(questionText, documentId)`: returns at once unless a
document is selected and `questionText.trim()` is non-empty; otherwise
sets `askingQuestion`, issues the request and prepends one `Question`
(id `Date.now().toString()`, modelled by the clock `now`): with the
server answer on success — also clearing `currentQuestion` — or with
answer `Error: <message>` when the request fails; finally
`askingQuestion := false`. -/
def askQuestion (s : AppState) (questionText : String) (fetch : AnswerFetch)
    (now : Nat) : AppState :=
  match s.selectedDocument with
  | none => s
  | some _ =>
      if jsTrim questionText = "" then s
      else
        let questionId := toString now
        let s1 := { s with askingQuestion := true }
        let s2 :=
          match fetch with
          | .ok ans =>
              { s1 with
                questions := ⟨questionId, questionText, ans, now⟩ :: s1.questions
                currentQuestion := "" }
          | .badStatus =>
              { s1 with
                questions :=
                  ⟨questionId, questionText, "Error: " ++ "Failed to get answer", now⟩
                    :: s1.questions }
          | .netError msg =>
              { s1 with
                questions :=
                  ⟨questionId, questionText, "Error: " ++ msg, now⟩ :: s1.questions }
        { s2 with askingQuestion := false }

/-!
## Backend pipeline, modelled from the spec

The repository source tree here contains only the frontend component,
the README and configuration; the Python backend it describes
(`src/app/services/processing_pipeline.py`, `progress_service.py` per the
README project structure) is not present.  The definitions below are
therefore modelled from the spec (sections 3 to 7): job data model,
orchestrator run, job store, and concurrency limiter.
-/

/-- Modelled from the spec: a page image produced by the PageExtractor
(opaque to the pipeline core). -/
structure PageImage where
  idx : Nat
deriving DecidableEq

/-- Modelled from the spec: the outcome of one PageAnalyzer call on one
page — success with an (opaque, string-abstracted) analysis payload,
an analyzer failure, or a per-call timeout. -/
inductive PageOutcome where
  | success (a : String)
  | failure (e : String)
  | timeout
deriving DecidableEq

/-- The spec's `PageResult`: 0-based `pageIndex` stable regardless of
completion order, `analysis` payload or null, nullable `pageError`. -/
structure PageResult where
  pageIndex : Nat
  analysis : Option String
  pageError : Option String
deriving DecidableEq

/-- The spec's job `status`: `queued | running | completed | failed`. -/
inductive Status where
  | queued
  | running
  | completed
  | failed
deriving DecidableEq

/-- The spec's `currentStep` enum: `extracting, analyzing, indexing, done`. -/
inductive Step where
  | extracting
  | analyzing
  | indexing
  | done
deriving DecidableEq

/-- Modelled from the spec: the Job record of the JobStore (spec section
3), with `indexWarning` holding the soft warning of a failed index build
(spec section 4.1 step 4). -/
structure Job where
  id : Nat
  status : Status
  totalPages : Nat
  currentPage : Nat
  currentStep : Step
  progressPercentage : ℚ
  results : List PageResult
  error : Option String
  indexWarning : Option String
deriving DecidableEq

/-- The `PageResult` stored by one page task (spec section 4.1 step 3):
on success `{pageIndex, analysis, pageError: null}`, on analyzer error or
timeout `{pageIndex, analysis: null, pageError}`. -/
def mkPageResult (i : Nat) : PageOutcome → PageResult
  | .success a => ⟨i, some a, none⟩
  | .failure e => ⟨i, none, some e⟩
  | .timeout => ⟨i, none, some "analysis timed out"⟩

/-- The `pageError` a page outcome is recorded with. -/
def pageErrorOf : PageOutcome → Option String
  | .success _ => none
  | .failure e => some e
  | .timeout => some "analysis timed out"

/-- Modelled from the spec (sections 4.4 and 5): aggregation reorders the
stored page results to page-index order before exposing them — for each
`pageIndex` in `[0, totalPages)` it picks the stored result with that
index (the barrier guarantees every index is present exactly once). -/
def aggregate (totalPages : Nat) (stored : List PageResult) : List PageResult :=
  (List.range totalPages).filterMap fun i =>
    stored.find? fun r => r.pageIndex == i

/-- Modelled from the spec (section 4.1): the background execution of one
job.  `extractResult` is the PageExtractor outcome; `outcome i` the
PageAnalyzer outcome for page `i`; `order` the order in which the page
tasks completed (a permutation of the page indices); `watchdogFired`
whether the overall watchdog forced the job to fail (spec section 7);
`indexResult` the IndexBuilder outcome.  Returns the final job record
and the list of page indices on which PageAnalyzer was invoked:
on extraction failure the job fails with the extraction error and no
analysis call is made; if the watchdog fired the job fails; otherwise
every page is analyzed, the stored results are aggregated in page order,
an index-build failure is recorded only as a soft warning, and the job
completes with `progressPercentage` pinned to 100. -/
def runJob (extractResult : Except String (List PageImage))
    (outcome : Nat → PageOutcome) (order : List Nat) (watchdogFired : Bool)
    (indexResult : Except String Unit) (j : Job) : Job × List Nat :=
  match extractResult with
  | .error e => ({ j with status := .failed, error := some e }, [])
  | .ok pages =>
      let n := pages.length
      let running :=
        { j with status := .running, totalPages := n, currentStep := .analyzing }
      if watchdogFired then
        ({ running with status := .failed, error := some "watchdog timeout" }, order)
      else
        let stored := order.map fun k => mkPageResult k (outcome k)
        ({ running with
            status := .completed
            currentStep := .done
            currentPage := n
            progressPercentage := 100
            results := aggregate n stored
            indexWarning :=
              match indexResult with
              | .ok _ => none
              | .error e => some e }, List.range n)

/-- Modelled from the spec: the JobStore, a process-wide registry of job
records keyed by id, with a fresh-id counter. -/
structure JobStore where
  jobs : List (Nat × Job)
  nextId : Nat
deriving DecidableEq

/-- The Job created at submission: status `queued`, empty results. -/
def freshJob (id : Nat) : Job :=
  ⟨id, .queued, 0, 0, .extracting, 0, [], none, none⟩

/-- Modelled from the spec (section 4.1): `submit(document) → jobId` —
non-blocking, returns the fresh job id immediately after registering a
`queued` Job; background execution (`runJob`) is scheduled, not run. -/
def submit (st : JobStore) : Nat × JobStore :=
  (st.nextId, ⟨(st.nextId, freshJob st.nextId) :: st.jobs, st.nextId + 1⟩)

/-- Modelled from the spec (section 4.2): `get(jobId) → Job | NotFound`. -/
def getJob (st : JobStore) (id : Nat) : Option Job :=
  (st.jobs.find? fun p => p.1 == id).map fun p => p.2

/-- The configured concurrency capacity, `MAX_CONCURRENT_PROCESSES=4`
from the repository's `.env.example`. -/
def MAX_CONCURRENT_PROCESSES : Nat := 4

/-- Modelled from the spec (section 4.3): state of the ConcurrencyLimiter
— the number of PageAnalyzer calls currently in flight (process-wide,
across all jobs) and the FIFO queue of suspended acquirers (task ids). -/
structure LimiterState where
  inFlight : Nat
  waiting : List Nat
deriving DecidableEq

/-- Modelled from the spec (section 4.3): limiter transitions.  A task
acquires immediately only when a slot is free and no one is queued ahead
of it; otherwise it suspends at the tail of the FIFO queue.  A release
hands the slot to the longest-waiting acquirer when one exists (the
in-flight count is unchanged: the slot changes hands), else frees it. -/
inductive LimiterStep (cap : Nat) : LimiterState → LimiterState → Prop
  | acquireFree (t : Nat) (s : LimiterState) :
      s.inFlight < cap → s.waiting = [] →
      LimiterStep cap s ⟨s.inFlight + 1, []⟩
  | acquireWait (t : Nat) (s : LimiterState) :
      cap ≤ s.inFlight ∨ s.waiting ≠ [] →
      LimiterStep cap s ⟨s.inFlight, s.waiting ++ [t]⟩
  | releaseWake (t : Nat) (rest : List Nat) (s : LimiterState) :
      s.waiting = t :: rest →
      LimiterStep cap s ⟨s.inFlight, rest⟩
  | releaseIdle (s : LimiterState) :
      s.waiting = [] → 0 < s.inFlight →
      LimiterStep cap s ⟨s.inFlight - 1, []⟩

/-- Limiter states reachable from the initial state (no call in flight,
nobody waiting) by limiter transitions. -/
inductive LimiterReachable (cap : Nat) : LimiterState → Prop
  | init : LimiterReachable cap ⟨0, []⟩
  | step {s t : LimiterState} :
      LimiterReachable cap s → LimiterStep cap s t → LimiterReachable cap t

/-!
## Concrete fixtures used by witnesses and counterexamples
-/

/-- A concrete `DocumentResult` as returned by the upload endpoint. -/
def exampleDoc : DocumentResult :=
  ⟨"page_1.png", none, none, none, "hello world", none, none, some "doc-1"⟩

/-- The initial component state of `App` (the useState initializers). -/
def exampleState : AppState :=
  ⟨none, false, 0, none, none, .upload, [], "", false, none, false, false⟩

/-- The initial state with a file selected, ready to upload. -/
def exampleUploadState : AppState :=
  { exampleState with file := some ⟨"scan.pdf"⟩ }

/-- The initial state with a processed document selected for Q-and-A. -/
def exampleQaState : AppState :=
  { exampleState with selectedDocument := some exampleDoc }

/-- The answer string `askQuestion` records for each fetch outcome. -/
def answerOf : AnswerFetch → String
  | .ok a => a
  | .badStatus => "Error: " ++ "Failed to get answer"
  | .netError m => "Error: " ++ m

/-- An empty job store. -/
def exampleStore : JobStore := ⟨[], 0⟩

/-- A two-page extracted document. -/
def examplePages : List PageImage := [⟨0⟩, ⟨1⟩]

/-- Analyzer outcomes where page 1 fails and every other page succeeds. -/
def exampleOutcome : Nat → PageOutcome :=
  fun i => if i = 1 then .failure "analyzer crashed" else .success "ok"

/-- A completion order in which page 1 finishes before page 0. -/
def exampleOrder : List Nat := [1, 0]

/-!
## Helper lemmas
-/

/-- The stored page result keeps its page index, whatever the outcome. -/
theorem mkPageResult_pageIndex (i : Nat) (o : PageOutcome) :
    (mkPageResult i o).pageIndex = i := by
  cases o <;> rfl

/-- The stored page result records exactly `pageErrorOf` its outcome. -/
theorem mkPageResult_pageError (i : Nat) (o : PageOutcome) :
    (mkPageResult i o).pageError = pageErrorOf o := by
  cases o <;> rfl

/-- Looking up page `i` among the stored results of any completion order
containing `i` yields the result stored by page task `i`. -/
theorem findStored_eq (outcome : Nat → PageOutcome) (order : List Nat) (i : Nat)
    (hi : i ∈ order) :
    (order.map fun k => mkPageResult k (outcome k)).find? (fun r => r.pageIndex == i)
      = some (mkPageResult i (outcome i)) := by
  induction order with
  | nil => cases hi
  | cons k rest ih =>
      by_cases hki : k = i
      · subst hki
        rw [List.map_cons, List.find?_cons_of_pos]
        simp [mkPageResult_pageIndex]
      · rw [List.map_cons, List.find?_cons_of_neg, ih]
        · rcases List.mem_cons.mp hi with hk | hk
          · exact absurd hk.symm hki
          · exact hk
        · simp [mkPageResult_pageIndex, hki]

/-- `filterMap` of an everywhere-successful lookup is a `map`. -/
theorem filterMap_eq_map_of_mem {α β : Type} (f : α → Option β) (g : α → β) (l : List α)
    (h : ∀ a ∈ l, f a = some (g a)) : l.filterMap f = l.map g := by
  induction l with
  | nil => rfl
  | cons a l ih =>
      rw [List.filterMap_cons_some (h a (List.mem_cons_self a l)), List.map_cons,
        ih fun b hb => h b (List.mem_cons_of_mem a hb)]

/-- Aggregating the results of any completion order that is a permutation
of the page indices yields the page-ordered result list. -/
theorem aggregate_perm_eq (outcome : Nat → PageOutcome) (order : List Nat) (n : Nat)
    (hperm : order.Perm (List.range n)) :
    aggregate n (order.map fun k => mkPageResult k (outcome k))
      = (List.range n).map fun i => mkPageResult i (outcome i) := by
  unfold aggregate
  apply filterMap_eq_map_of_mem
  intro i hi
  exact findStored_eq outcome order i (hperm.mem_iff.mpr hi)

/-- The results of a successfully extracted, watchdog-free run are the
page-ordered stored results. -/
theorem runJob_ok_results (pages : List PageImage) (outcome : Nat → PageOutcome)
    (order : List Nat) (indexResult : Except String Unit) (j : Job)
    (hperm : order.Perm (List.range pages.length)) :
    (runJob (.ok pages) outcome order false indexResult j).1.results
      = (List.range pages.length).map fun i => mkPageResult i (outcome i) := by
  simp only [runJob, Bool.false_eq_true, if_false]
  exact aggregate_perm_eq outcome order pages.length hperm

/-- The observable progress values of an upload whose fetch resolves
after one simulation tick, with one further tick afterwards. -/
theorem trace_one_one : handleUploadProgressTrace 1 1 = [0, 2, 100, 4] := by
  norm_num [handleUploadProgressTrace, simEmits, simAfter, simRun, simTick,
    startProgressSimulationState, progressIntervalRefValue, stopProgressSimulation]

/-!
## Claim theorems
-/

/-- C1: the claim says the observed `progressPercentage` never decreases
across successive observations of the same upload.  The code violates
this: `startProgressSimulation` never stores its interval ids in
`progressIntervalRef`, so the `stopProgressSimulation` call in
`handleUpload`'s `finally` block clears nothing, and after the success
handler's `setProgress(100)` the still-running interval sets progress
back down.  Evaluated at the failing input (fetch resolves after one
tick, one further tick fires): the observations are `0, 2, 100, 4` —
not a non-decreasing chain. -/
theorem progress_observations_regress :
    handleUploadProgressTrace 1 1 = [0, 2, 100, 4] ∧
    ¬ List.Chain' (· ≤ ·) (handleUploadProgressTrace 1 1) := by
  refine ⟨trace_one_one, ?_⟩
  rw [trace_one_one]
  simp [List.chain'_cons]
  norm_num

/-- C7: the claim says `progressPercentage` stays in `[0, 100]` and
equals 100 once the upload has completed successfully.  The range half
holds (checked here on the failing trace), but the pinning half fails
for the same reason as C1: after `setProgress(100)` on success, the
never-cleared simulation interval overwrites progress with 4, so the
last observed value after successful completion is 4, not 100. -/
theorem progress_not_pinned_after_success :
    handleUploadProgressTrace 1 1 = [0, 2, 100, 4] ∧
    (handleUploadProgressTrace 1 1).getLast? = some 4 ∧
    ((4 : ℚ) < 100) ∧
    (handleUploadProgressTrace 1 1).all (fun q => decide (0 ≤ q ∧ q ≤ 100)) = true := by
  refine ⟨trace_one_one, ?_, by norm_num, ?_⟩
  · rw [trace_one_one]; rfl
  · rw [trace_one_one]
    simp only [List.all_cons, List.all_nil, decide_eq_true_eq, Bool.and_eq_true]
    norm_num

/-- C2, counterexample: the claim says the caller obtains progress and
results solely by repeatedly calling `getJob` until the job is terminal.
The actual caller (`handleUpload` in App.tsx) never polls: in a concrete
successful run its only HTTP request is the synchronous upload endpoint
`POST /api/upload`, and `results` is populated directly from that
response — no job endpoint is ever requested. -/
theorem upload_obtains_results_without_polling :
    (handleUpload exampleUploadState (.ok (some [exampleDoc]))).2 = [uploadUrl] ∧
    (handleUpload exampleUploadState (.ok (some [exampleDoc]))).1.results
      = some [exampleDoc] :=
  ⟨rfl, rfl⟩

/-- C2, amended: submitting creates a `queued` job whose id is returned
immediately (background execution `runJob` is scheduled, not run), and
once background execution completes the polled job is `completed` with
fully populated results; the frontend caller, however, does not poll
`getJob` — with a file selected, `handleUpload` issues exactly one
request, to the synchronous upload endpoint. -/
theorem submit_nonblocking_poll_contract (st : JobStore) (pages : List PageImage)
    (outcome : Nat → PageOutcome) (order : List Nat) (indexResult : Except String Unit)
    (s : AppState) (fetch : UploadFetch) (f : BFile)
    (hperm : order.Perm (List.range pages.length)) (hfile : s.file = some f) :
    getJob (submit st).2 (submit st).1 = some (freshJob (submit st).1) ∧
    (freshJob (submit st).1).status = .queued ∧
    (runJob (.ok pages) outcome order false indexResult
        (freshJob (submit st).1)).1.status = .completed ∧
    (runJob (.ok pages) outcome order false indexResult
        (freshJob (submit st).1)).1.results.length = pages.length ∧
    (handleUpload s fetch).2 = [uploadUrl] := by
  refine ⟨?_, rfl, rfl, ?_, ?_⟩
  · simp [getJob, submit, List.find?_cons_of_pos]
  · rw [runJob_ok_results pages outcome order indexResult _ hperm]
    simp
  · unfold handleUpload
    rw [hfile]

/-- C2, witness: the amended contract at a concrete store, document and
frontend state. -/
theorem submit_nonblocking_poll_contract_witness :
    exampleOrder.Perm (List.range examplePages.length) ∧
    exampleUploadState.file = some ⟨"scan.pdf"⟩ ∧
    (getJob (submit exampleStore).2 (submit exampleStore).1
        = some (freshJob (submit exampleStore).1) ∧
      (freshJob (submit exampleStore).1).status = .queued ∧
      (runJob (.ok examplePages) exampleOutcome exampleOrder false (.ok ())
          (freshJob (submit exampleStore).1)).1.status = .completed ∧
      (runJob (.ok examplePages) exampleOutcome exampleOrder false (.ok ())
          (freshJob (submit exampleStore).1)).1.results.length = examplePages.length ∧
      (handleUpload exampleUploadState (.ok (some [exampleDoc]))).2 = [uploadUrl]) :=
  ⟨by decide, rfl,
    submit_nonblocking_poll_contract exampleStore examplePages exampleOutcome exampleOrder
      (.ok ()) exampleUploadState (.ok (some [exampleDoc])) ⟨"scan.pdf"⟩ (by decide) rfl⟩

/-- C3: once a job with `totalPages = N` is completed, its results have
length exactly `N` and the result at position `i` carries `pageIndex = i`
— for every completion order of the page tasks (any permutation of the
page indices). -/
theorem completed_job_results_ordered (pages : List PageImage)
    (outcome : Nat → PageOutcome) (order : List Nat) (indexResult : Except String Unit)
    (j : Job) (i : Nat)
    (hperm : order.Perm (List.range pages.length)) (hi : i < pages.length) :
    (runJob (.ok pages) outcome order false indexResult j).1.status = .completed ∧
    (runJob (.ok pages) outcome order false indexResult j).1.results.length
      = pages.length ∧
    ∃ r, (runJob (.ok pages) outcome order false indexResult j).1.results[i]? = some r ∧
      r.pageIndex = i := by
  refine ⟨rfl, ?_, ?_⟩
  · rw [runJob_ok_results pages outcome order indexResult j hperm]
    simp
  · rw [runJob_ok_results pages outcome order indexResult j hperm]
    refine ⟨mkPageResult i (outcome i), ?_, mkPageResult_pageIndex i (outcome i)⟩
    rw [List.getElem?_map, List.getElem?_range hi]
    rfl

/-- C3, witness: a two-page document whose page tasks complete in the
reversed order `[1, 0]` still exposes length-2, page-ordered results. -/
theorem completed_job_results_ordered_witness :
    exampleOrder.Perm (List.range examplePages.length) ∧ 1 < examplePages.length ∧
    ((runJob (.ok examplePages) exampleOutcome exampleOrder false (.ok ())
        (freshJob 0)).1.status = .completed ∧
      (runJob (.ok examplePages) exampleOutcome exampleOrder false (.ok ())
        (freshJob 0)).1.results.length = examplePages.length ∧
      ∃ r, (runJob (.ok examplePages) exampleOutcome exampleOrder false (.ok ())
        (freshJob 0)).1.results[1]? = some r ∧ r.pageIndex = 1) :=
  ⟨by decide, by decide,
    completed_job_results_ordered examplePages exampleOutcome exampleOrder (.ok ())
      (freshJob 0) 1 (by decide) (by decide)⟩

/-- C4: in every limiter state reachable from the idle state, the number
of PageAnalyzer calls in flight — process-wide, across all jobs — is at
most the configured capacity (`MAX_CONCURRENT_PROCESSES`, default 4):
immediate acquisition is guarded by a free slot, and a release either
frees its slot or hands it unchanged to the longest-waiting acquirer. -/
theorem limiter_inFlight_within_capacity (cap : Nat) (s : LimiterState)
    (h : LimiterReachable cap s) : s.inFlight ≤ cap := by
  induction h with
  | init => exact Nat.zero_le cap
  | step hreach hstep ih =>
      cases hstep with
      | acquireFree t s hlt hw => exact hlt
      | acquireWait t s hcond => exact ih
      | releaseWake t rest s hw => exact ih
      | releaseIdle s hw hpos => exact Nat.le_trans (Nat.sub_le _ _) ih

/-- C4, witness: a concrete reachable state (one call in flight after one
acquisition) respects the default capacity of 4. -/
theorem limiter_inFlight_within_capacity_witness :
    LimiterReachable MAX_CONCURRENT_PROCESSES ⟨1, []⟩ ∧
    (⟨1, []⟩ : LimiterState).inFlight ≤ MAX_CONCURRENT_PROCESSES := by
  have hre : LimiterReachable MAX_CONCURRENT_PROCESSES ⟨1, []⟩ :=
    LimiterReachable.step LimiterReachable.init
      (LimiterStep.acquireFree 0 ⟨0, []⟩ (by decide) rfl)
  exact ⟨hre, limiter_inFlight_within_capacity MAX_CONCURRENT_PROCESSES ⟨1, []⟩ hre⟩

/-- C5: a per-page analysis failure or timeout is recorded in that page's
`pageError` and the job still completes; the job's status is `failed`
exactly when extraction failed or the watchdog fired — never because of
a page outcome or an index-build failure. -/
theorem page_failures_do_not_fail_job (pages : List PageImage)
    (outcome : Nat → PageOutcome) (order : List Nat) (indexResult : Except String Unit)
    (j : Job) (i : Nat) (er : Except String (List PageImage)) (wd : Bool)
    (hperm : order.Perm (List.range pages.length)) (hi : i < pages.length) :
    (runJob (.ok pages) outcome order false indexResult j).1.status = .completed ∧
    (∃ r, (runJob (.ok pages) outcome order false indexResult j).1.results[i]?
        = some r ∧ r.pageError = pageErrorOf (outcome i)) ∧
    ((runJob er outcome order wd indexResult j).1.status = .failed ↔
      ((∃ e, er = .error e) ∨ wd = true)) := by
  refine ⟨rfl, ?_, ?_⟩
  · rw [runJob_ok_results pages outcome order indexResult j hperm]
    refine ⟨mkPageResult i (outcome i), ?_, mkPageResult_pageError i (outcome i)⟩
    rw [List.getElem?_map, List.getElem?_range hi]
    rfl
  · cases er with
    | error e => simp [runJob]
    | ok ps =>
        cases wd with
        | false => simp [runJob]
        | true => simp [runJob]

/-- C5, witness: in a two-page run where page 1's analyzer fails, the job
completes, page 1's result carries the failure in `pageError`, and a run
with a failing extractor is `failed`. -/
theorem page_failures_do_not_fail_job_witness :
    exampleOrder.Perm (List.range examplePages.length) ∧ 1 < examplePages.length ∧
    ((runJob (.ok examplePages) exampleOutcome exampleOrder false (.ok ())
        (freshJob 0)).1.status = .completed ∧
      (∃ r, (runJob (.ok examplePages) exampleOutcome exampleOrder false (.ok ())
          (freshJob 0)).1.results[1]? = some r ∧
        r.pageError = pageErrorOf (exampleOutcome 1)) ∧
      ((runJob (.error "unreadable document") exampleOutcome exampleOrder false (.ok ())
          (freshJob 0)).1.status = .failed ↔
        ((∃ e, (Except.error "unreadable document" :
            Except String (List PageImage)) = .error e) ∨ false = true))) :=
  ⟨by decide, by decide,
    page_failures_do_not_fail_job examplePages exampleOutcome exampleOrder (.ok ())
      (freshJob 0) 1 (.error "unreadable document") false (by decide) (by decide)⟩

/-- C6: when extraction fails, the job transitions to `failed` with the
extraction error recorded, its results stay empty, and no PageAnalyzer
call is made. -/
theorem extraction_failure_fails_job_no_analysis (e : String)
    (outcome : Nat → PageOutcome) (order : List Nat) (wd : Bool)
    (indexResult : Except String Unit) (id : Nat) :
    (runJob (.error e) outcome order wd indexResult (freshJob id)).1.status = .failed ∧
    (runJob (.error e) outcome order wd indexResult (freshJob id)).1.error = some e ∧
    (runJob (.error e) outcome order wd indexResult (freshJob id)).1.results = [] ∧
    (runJob (.error e) outcome order wd indexResult (freshJob id)).2 = [] :=
  ⟨rfl, rfl, rfl, rfl⟩

/-- C8: with a selected document and a non-blank question, `askQuestion`
terminates (it is a total function), leaves `askingQuestion` false, and
prepends exactly one `Question` to the list — carrying the server answer
on success, or `Error: <message>` when the request fails (`answerOf`) —
so the questions list stays ordered newest-first. -/
theorem askQuestion_appends_single_question (s : AppState) (questionText : String)
    (fetch : AnswerFetch) (now : Nat) (d : DocumentResult)
    (hdoc : s.selectedDocument = some d) (hq : jsTrim questionText ≠ "") :
    (askQuestion s questionText fetch now).askingQuestion = false ∧
    (askQuestion s questionText fetch now).questions =
      ⟨toString now, questionText, answerOf fetch, now⟩ :: s.questions := by
  unfold askQuestion
  rw [hdoc]
  simp only [if_neg hq]
  cases fetch <;> exact ⟨trivial, rfl⟩

/-- C8, witness: asking a concrete non-blank question with a successful
answer fetch prepends that one question and resets `askingQuestion`. -/
theorem askQuestion_appends_single_question_witness :
    exampleQaState.selectedDocument = some exampleDoc ∧
    jsTrim "What is this?" ≠ "" ∧
    ((askQuestion exampleQaState "What is this?" (.ok "A test document.") 5).askingQuestion
        = false ∧
      (askQuestion exampleQaState "What is this?" (.ok "A test document.") 5).questions =
        ⟨toString 5, "What is this?", answerOf (.ok "A test document."), 5⟩
          :: exampleQaState.questions) :=
  ⟨rfl, by decide,
    askQuestion_appends_single_question exampleQaState "What is this?"
      (.ok "A test document.") 5 exampleDoc rfl (by decide)⟩

/-- C9, counterexample: the claim says both file-selection handlers leave
all state other than `file`, `results`, `error`, `questions` and
`selectedDocument` unchanged — but `handleDrop` unconditionally calls
`setDragActive(false)` first, so from a state with `dragActive = true`
(the normal state during a drop) it changes `dragActive`. -/
theorem handleDrop_resets_dragActive_counterexample :
    (handleDrop { exampleState with dragActive := true } [⟨"scan.pdf"⟩]).dragActive
        = false ∧
    ({ exampleState with dragActive := true } : AppState).dragActive = true :=
  ⟨rfl, rfl⟩

/-- C9, amended: with a non-empty file list, both handlers set `file` to
the first file and reset `results`, `error`, `questions`,
`selectedDocument`; `handleFileChange` leaves every other field
(including `dragActive`) unchanged, while `handleDrop` additionally
resets `dragActive` to false and leaves every remaining field unchanged
— stated as full-state equalities. -/
theorem file_selection_resets_dependent_state (s : AppState) (f : BFile)
    (rest : List BFile) :
    handleFileChange s (f :: rest) =
      { s with file := some f, results := none, error := none, questions := [],
               selectedDocument := none } ∧
    handleDrop s (f :: rest) =
      { s with file := some f, results := none, error := none, questions := [],
               selectedDocument := none, dragActive := false } :=
  ⟨rfl, rfl⟩

/-- C10: when no file is selected, `handleUpload` returns at its first
guard: it issues no request and the whole component state is unchanged. -/
theorem handleUpload_noop_when_no_file (s : AppState) (fetch : UploadFetch)
    (h : s.file = none) : handleUpload s fetch = (s, []) := by
  unfold handleUpload
  rw [h]

/-- C10, witness: the initial state has no file, and `handleUpload` on it
is the identity with an empty request list. -/
theorem handleUpload_noop_when_no_file_witness :
    exampleState.file = none ∧
    handleUpload exampleState (.ok none) = (exampleState, []) :=
  ⟨rfl, handleUpload_noop_when_no_file exampleState (.ok none) rfl⟩
